import Mathlib

/-!
Verification development for the catbox cache policy engine
(`src/lib/policy.js`).  The JavaScript source is shallowly embedded as
executable Lean definitions: the per-policy mutable state becomes an
explicit `PolicyState` record that every operation threads, timers and
backend calls are reified as data returned by the operations, and the
single-threaded event-loop semantics is modelled by running the
serialized events (gets, resolution attempts) as lists.  JavaScript
numbers are modelled as `Int` (all quantities in the policy are integer
milliseconds and counters), `undefined`/`null` as `Option`, and truthy
error values as `Option Err` with `some` meaning truthy.
-/

namespace Catbox

/-- Opaque error values (JS `Error` objects / Boom errors); `some` models a
truthy error, `none` models `null`/`undefined`. -/
abbrev Err := String

/-- JS primitive values that can appear as a key or as the `id` field of a
structured key. -/
inductive JsPrim where
  | str (s : String)
  | num (n : Int)
  | jsNull
  | jsUndefined
deriving DecidableEq

/-- JS truthiness of a primitive (`''`, `0`, `null`, `undefined` are falsy). -/
def JsPrim.truthy : JsPrim → Bool
  | JsPrim.str s => s ≠ ""
  | JsPrim.num n => n ≠ 0
  | JsPrim.jsNull => false
  | JsPrim.jsUndefined => false

/-- JS string coercion of a primitive, as performed by `'+' + id`. -/
def JsPrim.toJsString : JsPrim → String
  | JsPrim.str s => s
  | JsPrim.num n => toString n
  | JsPrim.jsNull => "null"
  | JsPrim.jsUndefined => "undefined"

/-- A key passed to `get`/`drop`: a scalar, or an object carrying an `id`
field (other fields of a structured key are opaque and not modelled). -/
inductive Key where
  | prim (v : JsPrim)
  | obj (id : JsPrim)
deriving DecidableEq

/-- Source line 56 / 257: `(key && typeof key === 'object') ? key.id : key`.
(`null` is falsy, so `Key.prim jsNull` yields `jsNull` itself.) -/
def Key.extractId : Key → JsPrim
  | Key.prim v => v
  | Key.obj i => i

/-- Parsed `expiresAt` clock time stored on a compiled rule
(source lines 354-357). -/
structure ExpiresAt where
  hours : Nat
  minutes : Nat
deriving DecidableEq

/-- The `staleIn` option: an integer number of milliseconds or a user
function `(stored, ttl) → ms` (source line 84). -/
inductive StaleIn where
  | ms (n : Int)
  | func (f : Int → Int → Int)

/-- The `generateTimeout` option: an integer or the `false` sentinel that
disables the miss-path timeout (schema line 285: `.allow(false)`). -/
inductive GenTimeout where
  | ms (n : Int)
  | disabled
deriving DecidableEq

/-- A compiled rule as produced by `internals.Policy.compile`
(source lines 324-386).  Absent JS fields are `none`; `generateFunc` is
modelled by its presence (the producer itself is an external input). -/
structure Rule where
  expiresIn : Option Int := none
  expiresAt : Option ExpiresAt := none
  staleIn : Option StaleIn := none
  staleTimeout : Option Int := none
  generateFunc : Bool := false
  generateTimeout : Option GenTimeout := none
  generateOnReadError : Option Bool := none
  generateIgnoreWriteError : Option Bool := none
  dropOnError : Option Bool := none
  pendingGenerateTimeout : Option Int := none

namespace internals

/-- Source line 13: `day = 24 * 60 * 60 * 1000`. -/
def day : Int := 24 * 60 * 60 * 1000

/-- JS truthiness of `rule.expiresIn` (line 400: `if (rule.expiresIn)`).
The field is absent, or present with value `options.expiresIn || 0`. -/
def expiresInTruthy (rule : Rule) : Bool :=
  match rule.expiresIn with
  | some e => e != 0
  | none => false

/-- Models lines 409-414: `new Date(created)` followed by
`setHours/setMinutes/setSeconds(0)/setMilliseconds(0)` and `getTime()`,
for a host in a fixed-offset time zone `tz` (milliseconds east of UTC).
The civil day containing `created` starts at
`created - ((created + tz) % day)` in UTC; hours ≥ 24 roll into following
days exactly as JS `setHours` does. -/
def setTime (created : Int) (hours minutes : Nat) (tz : Int) : Int :=
  let localMs := created + tz
  let dayStartLocal := localMs - localMs % day
  dayStartLocal - tz + (hours : Int) * 3600000 + (minutes : Int) * 60000

/-- Source lines 390-428: `internals.Policy.ttl(rule, created, now)`.
`tz` is the host time-zone offset used by the `Date` arithmetic and
`dateNow` is the value `Date.now()` would return; both are explicit
parameters of the embedding.  The JS defaulting `now = now || Date.now()`
and `created = created || now` replaces falsy (`0`/`undefined`, modelled
as `0`) arguments. -/
def Policy.ttl (rule : Rule) (tz dateNow created0 now0 : Int) : Int :=
  let now := if now0 = 0 then dateNow else now0
  let created := if created0 = 0 then now else created0
  let age := now - created
  if age < 0 then 0
  else if expiresInTruthy rule then max (rule.expiresIn.getD 0 - age) 0
  else
    match rule.expiresAt with
    | none => 0
    | some ea =>
      if age > day then 0
      else
        let e0 := setTime created ea.hours ea.minutes tz
        let expires := if e0 ≤ created then e0 + day else e0
        if now ≥ expires then 0 else expires - now

end internals

/-- The six monotonic counters (source lines 26-33). -/
structure Stats where
  sets : Nat
  gets : Nat
  hits : Nat
  stales : Nat
  generates : Nat
  errors : Nat
deriving DecidableEq

/-- A waiter is an attached `get` callback; callbacks are opaque functions
in JS and are modelled as tokens.  (The `process.domain` binding on line 59
only restores ambient context and is identity here.) -/
abbrev Waiter := Nat

/-- A cached entry as annotated by the `get` completion handler: the
backend's `{item, stored, ttl}` plus the `isStale` field written on
line 85. -/
structure CachedEntry (α : Type) where
  item : α
  stored : Int
  ttl : Int
  isStale : Option Bool := none
deriving DecidableEq

/-- A cached entry as returned by the backend, before annotation. -/
structure CachedIn (α : Type) where
  item : α
  stored : Int
  ttl : Int
deriving DecidableEq

/-- The per-call report (source lines 76-91). -/
structure Report where
  msec : Int
  error : Option Err
  stored : Option Int := none
  ttl : Option Int := none
  isStale : Option Bool := none
deriving DecidableEq

/-- The mutable per-policy state: the Pendings table (`this._pendings`,
id → ordered waiter list, keyed by the prefixed id), the PendingGenerate
table (`this._pendingGenerateCall`, modelled as the list of marked keys),
and the counters. -/
structure PolicyState (α : Type) where
  pendings : List (String × List Waiter)
  pendingGenerateCall : List String
  stats : Stats
deriving DecidableEq

/-- JS object lookup on the string-keyed tables. -/
def tableGet (t : List (String × β)) (k : String) : Option β :=
  match t with
  | [] => none
  | (k1, v) :: rest => if k1 = k then some v else tableGet rest k

/-- JS object assignment `t[k] = v`. -/
def tableSet (t : List (String × β)) (k : String) (v : β) : List (String × β) :=
  match t with
  | [] => [(k, v)]
  | (k1, v1) :: rest => if k1 = k then (k, v) :: rest else (k1, v1) :: tableSet rest k v

/-- JS `delete t[k]`. -/
def tableDel (t : List (String × β)) (k : String) : List (String × β) :=
  match t with
  | [] => []
  | (k1, v1) :: rest => if k1 = k then tableDel rest k else (k1, v1) :: tableDel rest k

/-- Arguments of one call to `internals.respond` (err, value, cached,
report) — the completion every waiter receives. -/
structure RespondArgs (α : Type) where
  err : Option Err
  value : Option α
  cached : Option (CachedEntry α)
  report : Report
deriving DecidableEq

/-- One delivered completion: which waiter was invoked, and with what. -/
structure Delivery (α : Type) where
  waiter : Waiter
  err : Option Err
  value : Option α
  cached : Option (CachedEntry α)
  report : Report
deriving DecidableEq

namespace internals

/-- Source lines 209-223: `internals.respond`.  Captures the waiter list
for the prefixed id, deletes the table entry, schedules one `nextTick`
callback invocation per waiter in order, and adds the waiter count to
`stats.hits` when `report.isStale !== undefined`.  Returns `none` when the
table has no entry (the JS code would throw dereferencing
`pendings.length`; every reachable call site has the entry present or is
guarded by `Hoek.once`). -/
def respond (p : PolicyState α) (id : String) (a : RespondArgs α) :
    Option (PolicyState α × List (Delivery α)) :=
  let pid := "+" ++ id
  match tableGet p.pendings pid with
  | none => none
  | some pendings =>
    let stats1 :=
      if a.report.isStale.isSome then
        { p.stats with hits := p.stats.hits + pendings.length }
      else p.stats
    some ({ p with pendings := tableDel p.pendings pid, stats := stats1 },
      pendings.map fun w => ⟨w, a.err, a.value, a.cached, a.report⟩)

/-- The `Hoek.once` wrapper created on line 116: the first call forwards
to `internals.respond`, every later call is a no-op.  The boolean is the
wrapper's fired flag. -/
def respondOnce (fired : Bool) (p : PolicyState α) (id : String) (a : RespondArgs α) :
    Option (Bool × PolicyState α × List (Delivery α)) :=
  if fired then some (true, p, [])
  else (respond p id a).map fun r => (true, r.1, r.2)

/-- Runs a serialized sequence of resolution attempts (stale-fallback
timer, generate-timeout timer, producer success/error) through the shared
once-wrapped respond, accumulating all deliveries. -/
def runResolutions (fired : Bool) (p : PolicyState α) (id : String) :
    List (RespondArgs α) → Option (Bool × PolicyState α × List (Delivery α))
  | [] => some (fired, p, [])
  | a :: rest =>
    match respondOnce fired p id a with
    | none => none
    | some (f1, p1, ds) =>
      match runResolutions f1 p1 id rest with
      | none => none
      | some (f2, p2, ds2) => some (f2, p2, ds ++ ds2)

/-- Result of one `Policy.prototype.get` call: the updated state, and
`some id` when this call performed the `this._get(id, ...)` lookup (which
issues the backend `get` when a cache is configured, source lines
199-206). -/
structure GetResult (α : Type) where
  state : PolicyState α
  backendLookup : Option String
deriving DecidableEq

/-- Source lines 50-67: the synchronous part of
`internals.Policy.prototype.get`.  Increments `stats.gets`, then either
appends the callback to an existing Pendings entry (coalescing: no
lookup is started), or records `[callback]` and starts the lookup. -/
def Policy.get (p : PolicyState α) (key : Key) (callback : Waiter) : GetResult α :=
  let stats1 := { p.stats with gets := p.stats.gets + 1 }
  let id := (Key.extractId key).toJsString
  let pid := "+" ++ id
  match tableGet p.pendings pid with
  | some ws =>
    ⟨{ p with pendings := tableSet p.pendings pid (ws ++ [callback]), stats := stats1 }, none⟩
  | none =>
    ⟨{ p with pendings := tableSet p.pendings pid [callback], stats := stats1 }, some id⟩

/-- Sequential execution of a list of `get` calls for the same key,
returning the final state and how many of the calls performed the
`this._get` lookup. -/
def runGets : PolicyState α → Key → List Waiter → PolicyState α × Nat
  | p, _, [] => (p, 0)
  | p, key, cb :: rest =>
    let r := Policy.get p key cb
    let rr := runGets r.state key rest
    (rr.1, (if r.backendLookup.isSome then 1 else 0) + rr.2)

/-- The numeric value of `staleIn` computed on line 84: the user function
applied to `(stored, ttl)` when `staleIn` is a function, the number when
numeric, `undefined` when absent. -/
def staleInValue (rule : Rule) (stored ttl : Int) : Option Int :=
  match rule.staleIn with
  | some (StaleIn.ms n) => some n
  | some (StaleIn.func f) => some (f stored ttl)
  | none => none

/-- Line 85: `cached.isStale = (staleIn ? (Date.now() - cached.stored) >= staleIn : false)`. -/
def isStaleCalc (rule : Rule) (dateNow stored ttl : Int) : Bool :=
  match staleInValue rule stored ttl with
  | some si => si != 0 && decide (dateNow - stored ≥ si)
  | none => false

/-- What the `get` completion handler does next: respond immediately, or
enter `this._generate(id, key, cached, report)`. -/
inductive GetNext (α : Type) where
  | respond (a : RespondArgs α)
  | generate (cached : Option (CachedEntry α)) (report : Report)
deriving DecidableEq

/-- The report carried by either continuation. -/
def GetNext.report : GetNext α → Report
  | GetNext.respond a => a.report
  | GetNext.generate _ r => r

/-- Source lines 68-110: the completion handler of the `this._get` lookup
inside `get`.  Counts read errors, builds the report, annotates the cached
entry with `isStale` (counting stales), and classifies: no generate method
(or read error with `generateOnReadError` false) → respond with the error
and any cached value; found and fresh → respond with the value; otherwise
enter generation. -/
def Policy.getCallback (rule : Rule) (p : PolicyState α) (dateNow msec : Int)
    (err : Option Err) (cachedIn : Option (CachedIn α)) : PolicyState α × GetNext α :=
  let p1 := if err.isSome then { p with stats := { p.stats with errors := p.stats.errors + 1 } } else p
  match cachedIn with
  | none =>
    let report : Report := ⟨msec, err, none, none, none⟩
    if !rule.generateFunc || (err.isSome && !(rule.generateOnReadError.getD false)) then
      (p1, GetNext.respond ⟨err, none, none, report⟩)
    else
      (p1, GetNext.generate none report)
  | some c =>
    let stale := isStaleCalc rule dateNow c.stored c.ttl
    let cached : CachedEntry α := ⟨c.item, c.stored, c.ttl, some stale⟩
    let report : Report := ⟨msec, err, some c.stored, some c.ttl, some stale⟩
    let p2 := if stale then { p1 with stats := { p1.stats with stales := p1.stats.stales + 1 } } else p1
    if !rule.generateFunc || (err.isSome && !(rule.generateOnReadError.getD false)) then
      (p2, GetNext.respond ⟨err, some cached.item, some cached, report⟩)
    else if !stale then
      (p2, GetNext.respond ⟨none, some cached.item, some cached, report⟩)
    else
      (p2, GetNext.generate (some cached) report)

/-- The error produced by `Boom.serverTimeout()` on line 136. -/
def serverTimeoutError : Err := "Service Unavailable"

/-- A timer scheduled by `_generate`, reified: its delay and the
once-wrapped respond arguments its callback will use. -/
inductive TimerEvent (α : Type) where
  | staleFallback (delayMs : Int) (a : RespondArgs α)
  | generateTimeoutFire (delayMs : Int) (a : RespondArgs α)
deriving DecidableEq

/-- The effects of `internals.Policy.prototype._generate`
(source lines 114-162): the state after the synchronous part, the
(possibly ttl-mutated) cached entry, the scheduled timers, and whether
the producer was invoked. -/
structure GenSetup (α : Type) where
  state : PolicyState α
  cached : Option (CachedEntry α)
  timers : List (TimerEvent α)
  producerCalled : Bool
deriving DecidableEq

/-- Source lines 114-162.  Stale path (cached present): destructively
sets `cached.ttl = cached.ttl - staleTimeout` and schedules the stale
fallback only if the adjusted ttl is positive.  Miss path: schedules the
generation-timeout fallback when `generateTimeout` is truthy.  Then
invokes the producer unless a pending generate call for the id is marked,
counting `stats.generates` before the call and marking the id when
`pendingGenerateTimeout` is truthy.  (When the stale path runs with
`staleTimeout` absent — unreachable through `compile`, which requires
`staleTimeout` with `staleIn` — the JS ttl becomes `NaN` and no timer is
scheduled; the embedding keeps the entry and schedules no timer.  The
unmark timer of line 148 and the synchronous-throw catch of lines 157-160
are not claimed and not modelled.) -/
def Policy.generateStep (rule : Rule) (p : PolicyState α) (id : String)
    (cached : Option (CachedEntry α)) (report : Report) : GenSetup α :=
  let ct : Option (CachedEntry α) × List (TimerEvent α) :=
    match cached with
    | some c =>
      match rule.staleTimeout with
      | some st =>
        let c2 := { c with ttl := c.ttl - st }
        (some c2,
          if c2.ttl > 0 then
            [TimerEvent.staleFallback st ⟨none, some c2.item, some c2, report⟩]
          else [])
      | none => (some c, [])
    | none =>
      (none,
        match rule.generateTimeout with
        | some (GenTimeout.ms n) =>
          if n ≠ 0 then
            [TimerEvent.generateTimeoutFire n ⟨some serverTimeoutError, none, none, report⟩]
          else []
        | some GenTimeout.disabled => []
        | none => [])
  let pendingId := "+" ++ id
  if p.pendingGenerateCall.contains pendingId then
    ⟨p, ct.1, ct.2, false⟩
  else
    let stats1 := { p.stats with generates := p.stats.generates + 1 }
    let pgc :=
      if rule.pendingGenerateTimeout.getD 0 ≠ 0 then pendingId :: p.pendingGenerateCall
      else p.pendingGenerateCall
    ⟨{ p with pendingGenerateCall := pgc, stats := stats1 }, ct.1, ct.2, true⟩

/-- The write-back decision of the producer callback
(source lines 186-194). -/
inductive WriteAction where
  | drop
  | set (ttl : Option Int)
  | noWrite
deriving DecidableEq

/-- Source lines 186-194: `if ((generateError && this.rule.dropOnError) ||
ttl === 0) drop; if (!generateError) set(id, value, ttl); else finalize()`.
`ttlArg` is the producer-supplied ttl (`none` = `undefined`/`null`, which
is not `=== 0`). -/
def generateDisposition (rule : Rule) (generateError : Option Err) (ttlArg : Option Int) :
    WriteAction :=
  if (generateError.isSome && rule.dropOnError.getD false) || ttlArg == some 0 then
    WriteAction.drop
  else if generateError.isNone then WriteAction.set ttlArg
  else WriteAction.noWrite

/-- Source lines 171-182: the `finalize` closure.  `writeErr` is the error
the `drop`/`set` callback passed in (`none` on the direct path).  The
effective error is `generateError || (generateIgnoreWriteError ? null :
err)`; when a cached value exists, the error is truthy and `dropOnError`
is falsy, the stale entry is served alongside the error. -/
def finalize (rule : Rule) (generateError : Option Err) (cached : Option (CachedEntry α))
    (value : Option α) (report : Report) (writeErr : Option Err) : RespondArgs α :=
  let error :=
    if generateError.isSome then generateError
    else if rule.generateIgnoreWriteError.getD false then none
    else writeErr
  if cached.isSome && error.isSome && !(rule.dropOnError.getD false) then
    ⟨error, cached.map (fun c => c.item), cached, report⟩
  else
    ⟨error, value, none, report⟩

/-- Result of one `Policy.prototype.drop` call: the updated state, the
value passed to the user callback (`none` = `null`), and `some id` when
the backend drop was invoked. -/
structure DropResult (α : Type) where
  state : PolicyState α
  callbackArg : Option Err
  backendDrop : Option String
deriving DecidableEq

/-- Source lines 249-270: `internals.Policy.prototype.drop`.  Without a
cache the callback is invoked with `null` before any key inspection; with
a cache, a key with a falsy extracted id fails with `Invalid key`;
otherwise the backend drop runs, `backendErr` (an external input) is
counted in `stats.errors` when truthy and forwarded to the callback. -/
def Policy.drop (p : PolicyState α) (hasCache : Bool) (key : Key)
    (backendErr : Option Err) : DropResult α :=
  if !hasCache then ⟨p, none, none⟩
  else
    let id := Key.extractId key
    if !id.truthy then ⟨p, some "Invalid key", none⟩
    else
      let p1 :=
        if backendErr.isSome then
          { p with stats := { p.stats with errors := p.stats.errors + 1 } }
        else p
      ⟨p1, backendErr, some id.toJsString⟩

/-- The value of a digit character (`\d`: code points 48-57), `none` for
non-digits. -/
def digitVal (c : Char) : Option Nat :=
  if 48 ≤ c.toNat ∧ c.toNat ≤ 57 then some (c.toNat - 48) else none

/-- The regular expression `^\d\d?\:\d\d$` of schema line 281 (identical
to the capturing `^(\d\d?):(\d\d)$` of line 353), together with the
`parseInt` of the two captured groups: 1-2 digit hours, exactly 2 digit
minutes, no range restriction beyond the digit count. -/
def expiresAtMatch (s : String) : Option (Nat × Nat) :=
  match s.data with
  | [h1, ':', m1, m2] =>
    match digitVal h1, digitVal m1, digitVal m2 with
    | some a, some b, some c => some (a, 10 * b + c)
    | _, _, _ => none
  | [h1, h2, ':', m1, m2] =>
    match digitVal h1, digitVal h2, digitVal m1, digitVal m2 with
    | some a1, some a2, some b, some c => some (10 * a1 + a2, 10 * b + c)
    | _, _, _, _ => none
  | _ => none

end internals

/-- The options map handed to `Policy.compile`, restricted to the keys of
`internals.schema` with their Joi-declared types (untyped JS values of
other shapes are rejected by the Joi type checks and add nothing to the
claims; the pass-through hapi keys `privacy`/`cache`/`segment`/`shared`
are not modelled).  `generateFunc` is modelled by presence. -/
structure Options where
  expiresIn : Option Int := none
  expiresAt : Option String := none
  staleIn : Option StaleIn := none
  staleTimeout : Option Int := none
  generateFunc : Bool := false
  generateTimeout : Option GenTimeout := none
  generateOnReadError : Option Bool := none
  generateIgnoreWriteError : Option Bool := none
  dropOnError : Option Bool := none
  pendingGenerateTimeout : Option Int := none

/-- Line 326-327: `!options || !Object.keys(options).length`. -/
def Options.isEmpty (o : Options) : Bool :=
  o.expiresIn.isNone && o.expiresAt.isNone && o.staleIn.isNone && o.staleTimeout.isNone &&
  !o.generateFunc && o.generateTimeout.isNone && o.generateOnReadError.isNone &&
  o.generateIgnoreWriteError.isNone && o.dropOnError.isNone && o.pendingGenerateTimeout.isNone

namespace internals

/-- The Joi schema of lines 279-304: per-key constraints plus the
`without`/`with`/`and` cross-field dependencies. -/
def schemaValid (o : Options) : Bool :=
  o.expiresIn.all (fun n => decide (1 ≤ n)) &&
  o.expiresAt.all (fun s => (expiresAtMatch s).isSome) &&
  o.staleIn.all (fun si =>
    match si with
    | StaleIn.ms n => decide (1 ≤ n) && decide (n ≤ 86400000 - 1)
    | StaleIn.func _ => true) &&
  o.staleTimeout.all (fun n => decide (1 ≤ n)) &&
  o.generateTimeout.all (fun gt =>
    match gt with
    | GenTimeout.ms n => decide (1 ≤ n)
    | GenTimeout.disabled => true) &&
  o.pendingGenerateTimeout.all (fun n => decide (1 ≤ n)) &&
  !(o.expiresIn.isSome && o.expiresAt.isSome) &&
  (!o.staleIn.isSome || o.generateFunc) &&
  (!o.generateOnReadError.isSome || o.generateFunc) &&
  (!o.generateIgnoreWriteError.isSome || o.generateFunc) &&
  (!o.dropOnError.isSome || o.generateFunc) &&
  (o.generateFunc == o.generateTimeout.isSome) &&
  (o.staleIn.isSome == o.staleTimeout.isSome)

/-- The `Hoek.assert` checks of lines 339-345, evaluated in order after
the Joi validation; returns the first failing assertion's message.  (In
the line-344 check, an absent `staleIn` makes the JS comparison against
`NaN` false, so the assertion fails there.) -/
def compileChecks (o : Options) (serverSide : Bool) : Option String :=
  let hasExpiresIn := o.expiresIn.isSome
  let check1 : Bool := !hasExpiresIn || o.staleIn.isNone ||
        (match o.staleIn, o.expiresIn with
         | some (StaleIn.func _), _ => true
         | some (StaleIn.ms n), some e => decide (n < e)
         | _, _ => true)
  let check3 : Bool := o.staleTimeout.isNone || !hasExpiresIn ||
        (match o.staleTimeout, o.expiresIn with
         | some st, some e => decide (st < e)
         | _, _ => true)
  let check4 : Bool := o.staleTimeout.isNone || !hasExpiresIn ||
        (match o.staleIn, o.staleTimeout, o.expiresIn with
         | some (StaleIn.func _), _, _ => true
         | some (StaleIn.ms n), some st, some e => decide (st < e - n)
         | none, some _, some _ => false
         | _, _, _ => true)
  let check5 : Bool := o.staleTimeout.isNone || o.pendingGenerateTimeout.isNone ||
        (match o.staleTimeout, o.pendingGenerateTimeout with
         | some st, some pg => decide (st < pg)
         | _, _ => true)
  if !check1 then some "staleIn must be less than expiresIn"
  else if !(o.staleIn.isNone || serverSide) then
    some "Cannot use stale options without server-side caching"
  else if !check3 then some "staleTimeout must be less than expiresIn"
  else if !check4 then
    some "staleTimeout must be less than the delta between expiresIn and staleIn"
  else if !check5 then
    some "pendingGenerateTimeout must be greater than staleTimeout if specified"
  else none

/-- Source lines 307-387: `internals.Policy.compile(options, serverSide)`.
Empty options yield the empty rule; otherwise the Joi schema and the
`Hoek.assert` checks run, then the rule is constructed: the `expiresAt`
branch parses the clock time with the regex, the `expiresIn` branch stores
`options.expiresIn || 0`; the generate block copies the producer options
with their defaults, and `generateOnReadError`/`generateIgnoreWriteError`
default to true unconditionally. -/
def Policy.compile (options : Options) (serverSide : Bool) : Except String Rule :=
  if options.isEmpty then Except.ok {}
  else if ¬ schemaValid options then Except.error "Invalid cache policy configuration"
  else
    match compileChecks options serverSide with
    | some msg => Except.error msg
    | none =>
      let expPart : Rule :=
        match options.expiresAt with
        | some s =>
          match expiresAtMatch s with
          | some hm => { expiresAt := some ⟨hm.1, hm.2⟩ }
          | none => { expiresAt := none }
        | none => { expiresIn := some (options.expiresIn.getD 0) }
      let rule : Rule :=
        if options.generateFunc then
          let withStale :=
            if options.staleIn.isSome then
              { expPart with staleIn := options.staleIn, staleTimeout := options.staleTimeout }
            else expPart
          { withStale with
            generateFunc := true
            generateTimeout := options.generateTimeout
            dropOnError := some (options.dropOnError.getD true)
            pendingGenerateTimeout := some (options.pendingGenerateTimeout.getD 0) }
        else expPart
      Except.ok { rule with
        generateOnReadError := some (options.generateOnReadError.getD true)
        generateIgnoreWriteError := some (options.generateIgnoreWriteError.getD true) }

end internals

/-- Zeroed counters, as set up by the constructor (lines 26-33). -/
def stats0 : Stats := ⟨0, 0, 0, 0, 0, 0⟩

/-- A concrete policy state used to evaluate the theorems on inputs. -/
def wstate (pend : List (String × List Waiter)) : PolicyState Nat := ⟨pend, [], stats0⟩

/-- A concrete report used to evaluate the theorems on inputs. -/
def rep0 : Report := ⟨5, none, none, none, none⟩

/-- A concrete rule (dropOnError and generateIgnoreWriteError explicitly
false) used to evaluate the producer-callback disposition. -/
def rule3 : Rule := { dropOnError := some false, generateIgnoreWriteError := some false }

/-- A concrete stale cached entry used to evaluate the theorems. -/
def entry0 : CachedEntry Nat := ⟨9, 0, 500, some true⟩

/-- A concrete rule with `staleTimeout = 100` for the stale-fallback
evaluation. -/
def rule4 : Rule := { staleTimeout := some 100 }

/-- A concrete stale cached entry with ttl 600. -/
def entry600 : CachedEntry Nat := ⟨9, 0, 600, some true⟩

/-- The rule `compile { expiresAt := "13:30" }` produces. -/
def rule8 : Rule :=
  { expiresAt := some ⟨13, 30⟩
    generateOnReadError := some true
    generateIgnoreWriteError := some true }

/-- A concrete compiled-shape rule with a producer, `staleIn = 1`,
`staleTimeout = 100` and `dropOnError = false`. -/
def rule10 : Rule :=
  { generateFunc := true
    staleIn := some (StaleIn.ms 1)
    staleTimeout := some 100
    generateTimeout := some (GenTimeout.ms 500)
    generateOnReadError := some true
    generateIgnoreWriteError := some true
    dropOnError := some false
    pendingGenerateTimeout := some 0 }

/-! Table lemmas and run lemmas shared by several claims. -/

theorem tableGet_tableSet_self {β : Type} (t : List (String × β)) (k : String) (v : β) :
    tableGet (tableSet t k v) k = some v := by
  induction t with
  | nil => simp [tableGet, tableSet]
  | cons hd tl ih =>
    obtain ⟨k1, v1⟩ := hd
    by_cases h : k1 = k
    · simp [tableGet, tableSet, h]
    · simp [tableGet, tableSet, h, ih]

theorem runGets_pending {α : Type} (key : Key) :
    ∀ (cbs : List Waiter) (p : PolicyState α) (l : List Waiter),
      tableGet p.pendings ("+" ++ (Key.extractId key).toJsString) = some l →
      (internals.runGets p key cbs).2 = 0 ∧
        tableGet (internals.runGets p key cbs).1.pendings
          ("+" ++ (Key.extractId key).toJsString) = some (l ++ cbs) := by
  intro cbs
  induction cbs with
  | nil =>
    intro p l h
    simpa [internals.runGets] using h
  | cons cb rest ih =>
    intro p l h
    have hstep : internals.Policy.get p key cb =
        ⟨{ p with
            pendings := tableSet p.pendings ("+" ++ (Key.extractId key).toJsString) (l ++ [cb]),
            stats := { p.stats with gets := p.stats.gets + 1 } }, none⟩ := by
      simp [internals.Policy.get, h]
    have hnext := ih
        { p with
          pendings := tableSet p.pendings ("+" ++ (Key.extractId key).toJsString) (l ++ [cb]),
          stats := { p.stats with gets := p.stats.gets + 1 } }
        (l ++ [cb]) (by simpa using tableGet_tableSet_self ..)
    simpa [internals.runGets, hstep, List.append_assoc] using hnext

theorem runResolutions_fired {α : Type} :
    ∀ (l : List (RespondArgs α)) (p : PolicyState α) (id : String),
      internals.runResolutions true p id l = some (true, p, []) := by
  intro l
  induction l with
  | nil => intro p id; rfl
  | cons a rest ih =>
    intro p id
    simp [internals.runResolutions, internals.respondOnce, ih]

theorem runResolutions_first {α : Type} (p : PolicyState α) (id : String) (ws : List Waiter)
    (a : RespondArgs α) (rest : List (RespondArgs α))
    (h : tableGet p.pendings ("+" ++ id) = some ws) :
    internals.runResolutions false p id (a :: rest) =
      some (true,
        { p with
          pendings := tableDel p.pendings ("+" ++ id),
          stats :=
            if a.report.isStale.isSome then { p.stats with hits := p.stats.hits + ws.length }
            else p.stats },
        ws.map fun w => ⟨w, a.err, a.value, a.cached, a.report⟩) := by
  simp [internals.runResolutions, internals.respondOnce, internals.respond, h,
    runResolutions_fired]

/-! The claims. -/

/-- C1: Single-flight coalescing of `get`.  While a get for an id is
unresolved (the Pendings table has an entry for the prefixed id), any
further `get` for the same id only appends the callback to the waiter
list and starts no lookup; starting from a state with no entry, a run of
`n ≥ 1` gets for the id performs the `this._get` backend lookup exactly
once, namely on the first call, and leaves all `n` callbacks attached in
order. -/
theorem single_flight_coalescing_get (α : Type) (p : PolicyState α) (key : Key) (cb : Waiter) :
    (∀ ws, tableGet p.pendings ("+" ++ (Key.extractId key).toJsString) = some ws →
      internals.Policy.get p key cb =
        ⟨{ p with
            pendings := tableSet p.pendings ("+" ++ (Key.extractId key).toJsString) (ws ++ [cb]),
            stats := { p.stats with gets := p.stats.gets + 1 } }, none⟩) ∧
    (tableGet p.pendings ("+" ++ (Key.extractId key).toJsString) = none →
      ∀ cbs : List Waiter,
        (internals.runGets p key (cb :: cbs)).2 = 1 ∧
        (internals.Policy.get p key cb).backendLookup = some ((Key.extractId key).toJsString) ∧
        tableGet (internals.runGets p key (cb :: cbs)).1.pendings
          ("+" ++ (Key.extractId key).toJsString) = some (cb :: cbs)) := by
  constructor
  · intro ws h
    simp [internals.Policy.get, h]
  · intro h cbs
    have hstep : internals.Policy.get p key cb =
        ⟨{ p with
            pendings := tableSet p.pendings ("+" ++ (Key.extractId key).toJsString) [cb],
            stats := { p.stats with gets := p.stats.gets + 1 } },
          some ((Key.extractId key).toJsString)⟩ := by
      simp [internals.Policy.get, h]
    have htbl := tableGet_tableSet_self p.pendings ("+" ++ (Key.extractId key).toJsString) [cb]
    have hrest := @runGets_pending α key cbs
        { p with
          pendings := tableSet p.pendings ("+" ++ (Key.extractId key).toJsString) [cb],
          stats := { p.stats with gets := p.stats.gets + 1 } }
        [cb] htbl
    refine ⟨?_, by simp [hstep], ?_⟩
    · simp [internals.runGets, hstep, hrest.1]
    · simpa [internals.runGets, hstep] using hrest.2

/-- Witness for C1: a coalesced `get` on a state whose Pendings table
already holds waiter 5 for id `k` only appends waiter 7; from an empty
table, three gets for `k` perform exactly one lookup, issued by the
first caller. -/
theorem single_flight_coalescing_get_witness :
    (tableGet (wstate [("+k", [5])]).pendings
        ("+" ++ (Key.extractId (Key.prim (JsPrim.str "k"))).toJsString) = some [5] ∧
      internals.Policy.get (wstate [("+k", [5])]) (Key.prim (JsPrim.str "k")) 7 =
        ⟨{ wstate [("+k", [5])] with
            pendings := tableSet (wstate [("+k", [5])]).pendings
              ("+" ++ (Key.extractId (Key.prim (JsPrim.str "k"))).toJsString) ([5] ++ [7]),
            stats := { (wstate [("+k", [5])]).stats with
              gets := (wstate [("+k", [5])]).stats.gets + 1 } }, none⟩) ∧
    (tableGet (wstate []).pendings
        ("+" ++ (Key.extractId (Key.prim (JsPrim.str "k"))).toJsString) = none ∧
      (internals.runGets (wstate []) (Key.prim (JsPrim.str "k")) (1 :: [2, 3])).2 = 1 ∧
      (internals.Policy.get (wstate []) (Key.prim (JsPrim.str "k")) 1).backendLookup =
        some ((Key.extractId (Key.prim (JsPrim.str "k"))).toJsString) ∧
      tableGet (internals.runGets (wstate []) (Key.prim (JsPrim.str "k")) (1 :: [2, 3])).1.pendings
        ("+" ++ (Key.extractId (Key.prim (JsPrim.str "k"))).toJsString) = some (1 :: [2, 3])) :=
  ⟨⟨by decide,
    (single_flight_coalescing_get Nat (wstate [("+k", [5])]) (Key.prim (JsPrim.str "k")) 7).1
      [5] (by decide)⟩,
   ⟨by decide,
    (single_flight_coalescing_get Nat (wstate []) (Key.prim (JsPrim.str "k")) 1).2
      (by decide) [2, 3]⟩⟩

/-- C2: Exactly-once FIFO delivery.  For a get whose Pendings entry holds
the waiters `ws`, any nonempty serialized sequence of resolution attempts
through the shared once-wrapped respond delivers to each waiter exactly
one completion, in attachment order, carrying the first attempt's
`(err, value, cached, report)`; all later attempts contribute no
deliveries and change nothing. -/
theorem respond_exactly_once_fifo (α : Type) (p : PolicyState α) (id : String)
    (ws : List Waiter) (a : RespondArgs α) (rest : List (RespondArgs α))
    (h : tableGet p.pendings ("+" ++ id) = some ws) :
    internals.runResolutions false p id (a :: rest) =
      some (true,
        { p with
          pendings := tableDel p.pendings ("+" ++ id),
          stats :=
            if a.report.isStale.isSome then { p.stats with hits := p.stats.hits + ws.length }
            else p.stats },
        ws.map fun w => ⟨w, a.err, a.value, a.cached, a.report⟩) :=
  runResolutions_first p id ws a rest h

/-- Witness for C2: two attached waiters, a winning resolution followed by
a losing one: each waiter is delivered the first payload once, in order. -/
theorem respond_exactly_once_fifo_witness :
    tableGet (wstate [("+k", [1, 2])]).pendings ("+" ++ "k") = some [1, 2] ∧
    internals.runResolutions false (wstate [("+k", [1, 2])]) "k"
        ((⟨none, some 9, none, ⟨5, none, none, none, none⟩⟩ : RespondArgs Nat) ::
          [⟨some "late", none, none, ⟨6, some "late", none, none, none⟩⟩]) =
      some (true,
        { wstate [("+k", [1, 2])] with
          pendings := tableDel (wstate [("+k", [1, 2])]).pendings ("+" ++ "k"),
          stats :=
            if (⟨none, some 9, none, ⟨5, none, none, none, none⟩⟩ :
                RespondArgs Nat).report.isStale.isSome then
              { (wstate [("+k", [1, 2])]).stats with
                hits := (wstate [("+k", [1, 2])]).stats.hits + [1, 2].length }
            else (wstate [("+k", [1, 2])]).stats },
        [1, 2].map fun w =>
          ⟨w, none, some 9, none, ⟨5, none, none, none, none⟩⟩) :=
  ⟨by decide,
   respond_exactly_once_fifo Nat (wstate [("+k", [1, 2])]) "k" [1, 2]
     ⟨none, some 9, none, ⟨5, none, none, none, none⟩⟩
     [⟨some "late", none, none, ⟨6, some "late", none, none, none⟩⟩] (by decide)⟩

/-- C7: `stats.hits` accounting.  A resolution whose report carries an
`isStale` field (set exactly when the backend lookup observed an entry,
fresh or stale) adds exactly the waiter count to `stats.hits`, and only
the winning attempt does so; a report without `isStale` (no backend
entry observed) never increments `hits`. -/
theorem hits_accounting (α : Type) (p : PolicyState α) (id : String) (ws : List Waiter)
    (a : RespondArgs α) (rest : List (RespondArgs α))
    (h : tableGet p.pendings ("+" ++ id) = some ws) :
    ((internals.runResolutions false p id (a :: rest)).map fun r => r.2.1.stats.hits) =
      some (if a.report.isStale.isSome then p.stats.hits + ws.length else p.stats.hits) ∧
    ∀ (rule : Rule) (q : PolicyState α) (dateNow msec : Int) (err : Option Err)
      (cIn : Option (CachedIn α)),
      ((internals.Policy.getCallback rule q dateNow msec err cIn).2.report).isStale.isSome =
        cIn.isSome := by
  constructor
  · rw [runResolutions_first p id ws a rest h]
    by_cases hs : a.report.isStale.isSome <;> simp [hs]
  · intro rule q dateNow msec err cIn
    cases cIn with
    | none =>
      simp only [internals.Policy.getCallback]
      split <;> simp [internals.GetNext.report]
    | some c =>
      cases hst : internals.isStaleCalc rule dateNow c.stored c.ttl <;>
        simp only [internals.Policy.getCallback, hst] <;>
        split <;> simp [internals.GetNext.report]

/-- Witness for C7: two waiters resolved with a report carrying
`isStale`, so `hits` goes from 0 to 2; and on a concrete backend entry
the completion handler's report carries `isStale` while on a miss it does
not. -/
theorem hits_accounting_witness :
    tableGet (wstate [("+k", [3, 4])]).pendings ("+" ++ "k") = some [3, 4] ∧
    ((internals.runResolutions false (wstate [("+k", [3, 4])]) "k"
        ((⟨none, some 9, none, ⟨5, none, some 0, some 100, some false⟩⟩ : RespondArgs Nat) ::
          [])).map fun r => r.2.1.stats.hits) =
      some (if (⟨none, some 9, none, ⟨5, none, some 0, some 100, some false⟩⟩ :
          RespondArgs Nat).report.isStale.isSome then
        (wstate [("+k", [3, 4])]).stats.hits + [3, 4].length
      else (wstate [("+k", [3, 4])]).stats.hits) ∧
    ((internals.Policy.getCallback {} (wstate []) 0 0 none
        (some (⟨9, 0, 100⟩ : CachedIn Nat))).2.report).isStale.isSome =
      (some (⟨9, 0, 100⟩ : CachedIn Nat)).isSome :=
  ⟨by decide,
   (hits_accounting Nat (wstate [("+k", [3, 4])]) "k" [3, 4]
     ⟨none, some 9, none, ⟨5, none, some 0, some 100, some false⟩⟩ [] (by decide)).1,
   (hits_accounting Nat (wstate [("+k", [3, 4])]) "k" [3, 4]
     ⟨none, some 9, none, ⟨5, none, some 0, some 100, some false⟩⟩ [] (by decide)).2
     {} (wstate []) 0 0 none (some ⟨9, 0, 100⟩)⟩

/-- C3: Producer-callback disposition.  When the producer's callback fires
with `(generateError, value, ttl)`: `drop(id)` runs exactly when
(`generateError` truthy and `dropOnError` truthy) or `ttl === 0`;
otherwise `set(id, value, ttl)` runs when `generateError` is falsy;
otherwise finalization is direct.  The finalized error is `generateError`,
or else the write/drop error unless `generateIgnoreWriteError` is truthy;
and when a prior cached value exists, the error is truthy and
`dropOnError` is falsy, waiters receive `(error, cached.item, cached,
report)`, otherwise `(error, value, null, report)`. -/
theorem generate_callback_disposition (α : Type) (rule : Rule) (genErr : Option Err)
    (ttlArg : Option Int) (cached : Option (CachedEntry α)) (value : Option α)
    (report : Report) (writeErr : Option Err) :
    (internals.generateDisposition rule genErr ttlArg = internals.WriteAction.drop ↔
      (genErr.isSome = true ∧ rule.dropOnError.getD false = true) ∨ ttlArg = some 0) ∧
    (¬ ((genErr.isSome = true ∧ rule.dropOnError.getD false = true) ∨ ttlArg = some 0) →
      genErr = none →
      internals.generateDisposition rule genErr ttlArg = internals.WriteAction.set ttlArg) ∧
    (¬ ((genErr.isSome = true ∧ rule.dropOnError.getD false = true) ∨ ttlArg = some 0) →
      genErr.isSome = true →
      internals.generateDisposition rule genErr ttlArg = internals.WriteAction.noWrite) ∧
    ((internals.finalize rule genErr cached value report writeErr).err =
      if genErr.isSome then genErr
      else if rule.generateIgnoreWriteError.getD false then none else writeErr) ∧
    (cached.isSome = true →
      (internals.finalize rule genErr cached value report writeErr).err.isSome = true →
      rule.dropOnError.getD false = false →
      internals.finalize rule genErr cached value report writeErr =
        ⟨(internals.finalize rule genErr cached value report writeErr).err,
          cached.map (fun c => c.item), cached, report⟩) ∧
    (¬ (cached.isSome = true ∧
          (internals.finalize rule genErr cached value report writeErr).err.isSome = true ∧
          rule.dropOnError.getD false = false) →
      internals.finalize rule genErr cached value report writeErr =
        ⟨(internals.finalize rule genErr cached value report writeErr).err,
          value, none, report⟩) := by
  cases genErr with
  | some e =>
    cases hdo : rule.dropOnError.getD false <;>
      cases hgi : rule.generateIgnoreWriteError.getD false <;>
      cases cached <;>
      by_cases ht : ttlArg = some 0 <;>
      simp_all [internals.generateDisposition, internals.finalize]
  | none =>
    cases hdo : rule.dropOnError.getD false <;>
      cases hgi : rule.generateIgnoreWriteError.getD false <;>
      cases cached <;>
      cases writeErr <;>
      by_cases ht : ttlArg = some 0 <;>
      simp_all [internals.generateDisposition, internals.finalize]

/-- Witness for C3: with `dropOnError = false` a truthy producer error and
a non-zero ttl finalize directly, and with the prior (stale) cached entry
present the waiters receive the error alongside the cached item. -/
theorem generate_callback_disposition_witness :
    (¬ (((some "boom" : Option Err).isSome = true ∧ rule3.dropOnError.getD false = true) ∨
        (none : Option Int) = some 0) ∧
      (some "boom" : Option Err).isSome = true ∧
      internals.generateDisposition rule3 (some "boom") none = internals.WriteAction.noWrite) ∧
    ((some entry0 : Option (CachedEntry Nat)).isSome = true ∧
      (internals.finalize rule3 (some "boom") (some entry0) (some 7) rep0 none).err.isSome = true ∧
      rule3.dropOnError.getD false = false ∧
      internals.finalize rule3 (some "boom") (some entry0) (some 7) rep0 none =
        ⟨(internals.finalize rule3 (some "boom") (some entry0) (some 7) rep0 none).err,
          (some entry0).map (fun c => c.item), some entry0, rep0⟩) :=
  ⟨⟨by decide, by decide,
    (generate_callback_disposition Nat rule3 (some "boom") none (some entry0) (some 7)
      rep0 none).2.2.1 (by decide) (by decide)⟩,
   ⟨by decide, by decide, by decide,
    (generate_callback_disposition Nat rule3 (some "boom") none (some entry0) (some 7)
      rep0 none).2.2.2.2.1 (by decide) (by decide) (by decide)⟩⟩

/-- C4: Stale-fallback scheduling.  On the stale path (`cached` present)
with `staleTimeout = st`, a fallback timer delivering the stale value
after `st` ms is scheduled if and only if `cached.ttl - st > 0`; when the
condition fails no timer at all is scheduled by `_generate` (in
particular no generation-timeout timer, which belongs to the miss path
only), and the waiters can only be resolved by the producer. -/
theorem stale_fallback_timer_condition (α : Type) (rule : Rule) (p : PolicyState α)
    (id : String) (c : CachedEntry α) (report : Report) (st : Int)
    (hst : rule.staleTimeout = some st) :
    ((internals.Policy.generateStep rule p id (some c) report).timers ≠ [] ↔
      c.ttl - st > 0) ∧
    (c.ttl - st > 0 →
      (internals.Policy.generateStep rule p id (some c) report).timers =
        [internals.TimerEvent.staleFallback st
          ⟨none, some c.item, some { c with ttl := c.ttl - st }, report⟩]) ∧
    (¬ c.ttl - st > 0 →
      (internals.Policy.generateStep rule p id (some c) report).timers = []) := by
  have htimers : (internals.Policy.generateStep rule p id (some c) report).timers =
      (if c.ttl - st > 0 then
        [internals.TimerEvent.staleFallback st
          ⟨none, some c.item, some { c with ttl := c.ttl - st }, report⟩]
      else []) := by
    simp only [internals.Policy.generateStep, hst]
    split <;> rfl
  refine ⟨?_, ?_, ?_⟩
  · rw [htimers]
    split_ifs with hpos <;> simp [hpos]
  · intro hpos
    rw [htimers, if_pos hpos]
  · intro hpos
    rw [htimers, if_neg hpos]

/-- Witness for C4: a stale entry with ttl 600 and `staleTimeout = 100`
schedules exactly the 100 ms stale-fallback timer carrying the adjusted
entry; an entry with ttl 50 schedules none. -/
theorem stale_fallback_timer_condition_witness :
    rule4.staleTimeout = some 100 ∧
    (entry600.ttl - 100 > 0 ∧
      (internals.Policy.generateStep rule4 (wstate []) "k" (some entry600) rep0).timers =
        [internals.TimerEvent.staleFallback 100
          ⟨none, some entry600.item, some { entry600 with ttl := entry600.ttl - 100 }, rep0⟩]) ∧
    (¬ (⟨9, 0, 50, some true⟩ : CachedEntry Nat).ttl - 100 > 0 ∧
      (internals.Policy.generateStep rule4 (wstate []) "k"
        (some (⟨9, 0, 50, some true⟩ : CachedEntry Nat)) rep0).timers = []) :=
  ⟨by decide,
   ⟨by decide,
    (stale_fallback_timer_condition Nat rule4 (wstate []) "k" entry600 rep0 100
      (by decide)).2.1 (by decide)⟩,
   ⟨by decide,
    (stale_fallback_timer_condition Nat rule4 (wstate []) "k" ⟨9, 0, 50, some true⟩ rep0 100
      (by decide)).2.2 (by decide)⟩⟩

/-- C10 (implicit frame effect): on the stale path the completion handler
records the backend-reported ttl in `report.ttl`, then `_generate`
destructively overwrites the entry's `ttl` field with
`cached.ttl - staleTimeout`; the stale-fallback timer and the
`dropOnError = false` finalization both deliver the entry with the
adjusted ttl, while the report keeps the original value. -/
theorem stale_ttl_overwrite (α : Type) (rule : Rule) (p q : PolicyState α) (id : String)
    (dateNow msec st : Int) (cIn : CachedIn α) (genErr writeErr : Option Err)
    (value : Option α)
    (hgf : rule.generateFunc = true)
    (hst : rule.staleTimeout = some st)
    (hstale : internals.isStaleCalc rule dateNow cIn.stored cIn.ttl = true) :
    internals.Policy.getCallback rule q dateNow msec none (some cIn) =
      ({ q with stats := { q.stats with stales := q.stats.stales + 1 } },
        internals.GetNext.generate (some ⟨cIn.item, cIn.stored, cIn.ttl, some true⟩)
          ⟨msec, none, some cIn.stored, some cIn.ttl, some true⟩) ∧
    (internals.Policy.generateStep rule p id
        (some ⟨cIn.item, cIn.stored, cIn.ttl, some true⟩)
        ⟨msec, none, some cIn.stored, some cIn.ttl, some true⟩).cached =
      some ⟨cIn.item, cIn.stored, cIn.ttl - st, some true⟩ ∧
    (⟨msec, none, some cIn.stored, some cIn.ttl, some true⟩ : Report).ttl = some cIn.ttl ∧
    (∀ t ∈ (internals.Policy.generateStep rule p id
        (some ⟨cIn.item, cIn.stored, cIn.ttl, some true⟩)
        ⟨msec, none, some cIn.stored, some cIn.ttl, some true⟩).timers,
      t = internals.TimerEvent.staleFallback st
        ⟨none, some cIn.item, some ⟨cIn.item, cIn.stored, cIn.ttl - st, some true⟩,
          ⟨msec, none, some cIn.stored, some cIn.ttl, some true⟩⟩) ∧
    (genErr.isSome = true → rule.dropOnError.getD false = false →
      internals.finalize rule genErr
          (internals.Policy.generateStep rule p id
            (some ⟨cIn.item, cIn.stored, cIn.ttl, some true⟩)
            ⟨msec, none, some cIn.stored, some cIn.ttl, some true⟩).cached
          value ⟨msec, none, some cIn.stored, some cIn.ttl, some true⟩ writeErr =
        ⟨genErr, some cIn.item, some ⟨cIn.item, cIn.stored, cIn.ttl - st, some true⟩,
          ⟨msec, none, some cIn.stored, some cIn.ttl, some true⟩⟩) := by
  have hcached : (internals.Policy.generateStep rule p id
      (some ⟨cIn.item, cIn.stored, cIn.ttl, some true⟩)
      ⟨msec, none, some cIn.stored, some cIn.ttl, some true⟩).cached =
      some ⟨cIn.item, cIn.stored, cIn.ttl - st, some true⟩ := by
    simp only [internals.Policy.generateStep, hst]
    split <;> rfl
  have htimers : (internals.Policy.generateStep rule p id
      (some ⟨cIn.item, cIn.stored, cIn.ttl, some true⟩)
      ⟨msec, none, some cIn.stored, some cIn.ttl, some true⟩).timers =
      (if cIn.ttl - st > 0 then
        [internals.TimerEvent.staleFallback st
          ⟨none, some cIn.item, some ⟨cIn.item, cIn.stored, cIn.ttl - st, some true⟩,
            ⟨msec, none, some cIn.stored, some cIn.ttl, some true⟩⟩]
      else []) := by
    simp only [internals.Policy.generateStep, hst]
    split <;> rfl
  refine ⟨?_, hcached, rfl, ?_, ?_⟩
  · simp [internals.Policy.getCallback, hstale, hgf]
  · intro t ht
    rw [htimers] at ht
    split_ifs at ht with hpos
    · simpa using ht
    · simp at ht
  · intro hg hd
    rw [hcached]
    cases genErr with
    | none => simp at hg
    | some e => simp [internals.finalize, hd]

/-- Witness for C10: a backend entry `{item 9, stored 0, ttl 600}` read at
`Date.now() = 1000` under `rule10` is stale; after `_generate` the entry
carries ttl 500 while the report still carries ttl 600. -/
theorem stale_ttl_overwrite_witness :
    rule10.generateFunc = true ∧
    rule10.staleTimeout = some 100 ∧
    internals.isStaleCalc rule10 1000 (⟨9, 0, 600⟩ : CachedIn Nat).stored
      (⟨9, 0, 600⟩ : CachedIn Nat).ttl = true ∧
    (internals.Policy.generateStep rule10 (wstate []) "k"
        (some ⟨9, 0, 600, some true⟩) ⟨5, none, some 0, some 600, some true⟩).cached =
      some ⟨9, 0, (600 : Int) - 100, some true⟩ ∧
    (⟨5, none, some 0, some 600, some true⟩ : Report).ttl = some 600 :=
  ⟨by decide, by decide, by decide,
   (stale_ttl_overwrite Nat rule10 (wstate []) (wstate []) "k" 1000 5 100 ⟨9, 0, 600⟩
     (some "boom") none (some 7) (by decide) (by decide) (by decide)).2.1,
   (stale_ttl_overwrite Nat rule10 (wstate []) (wstate []) "k" 1000 5 100 ⟨9, 0, 600⟩
     (some "boom") none (some 7) (by decide) (by decide) (by decide)).2.2.1⟩

/-- Counterexample to C5 as stated: the claim quantifies over every
`created` and `now`, but the source defaults falsy arguments
(`now = now || Date.now(); created = created || now`), so at
`created = 0`, `now = 5000` a rule with `expiresIn = 1000` returns 1000
(age is recomputed as 0), not `max(1000 - (5000 - 0), 0) = 0`. -/
theorem ttl_formula_counterexample :
    ¬ (internals.Policy.ttl { expiresIn := some 1000 } 0 77 0 5000 =
        max (1000 - (5000 - 0)) 0) := by decide

/-- C5 (amended): for nonzero (positive) `created` and `now` — falsy
arguments are replaced by the source's defaulting — `ttl` returns 0 when
`now < created`; returns `max(expiresIn - (now - created), 0)` when the
rule has `expiresIn` set (and the clock-skew clamp does not fire); returns
0 when the rule has neither `expiresIn` nor `expiresAt`; and with
`expiresIn` set, `ttl(rule, t, t) = expiresIn` and
`ttl(rule, t, t + expiresIn) = 0`. -/
theorem ttl_formula_amended (rule : Rule) (tz dateNow created now e : Int)
    (hc : 0 < created) (hn : 0 < now) :
    (now < created → internals.Policy.ttl rule tz dateNow created now = 0) ∧
    (rule.expiresIn = some e → 0 < e → created ≤ now →
      internals.Policy.ttl rule tz dateNow created now = max (e - (now - created)) 0) ∧
    (internals.expiresInTruthy rule = false → rule.expiresAt = none →
      internals.Policy.ttl rule tz dateNow created now = 0) ∧
    (rule.expiresIn = some e → 0 < e →
      internals.Policy.ttl rule tz dateNow created created = e ∧
      internals.Policy.ttl rule tz dateNow created (created + e) = 0) := by
  have hc0 : ¬ (created = 0) := by omega
  have hn0 : ¬ (now = 0) := by omega
  refine ⟨?_, ?_, ?_, ?_⟩
  · intro hlt
    have hage : now - created < 0 := by omega
    simp [internals.Policy.ttl, hn0, hc0, hage]
  · intro he hepos hge
    have hage : ¬ (now - created < 0) := by omega
    have htr : internals.expiresInTruthy rule = true := by
      simp only [internals.expiresInTruthy, he, bne_iff_ne, ne_eq, decide_eq_true_eq]
      omega
    simp [internals.Policy.ttl, hn0, hc0, hage, htr, he]
  · intro hfalse hat
    simp [internals.Policy.ttl, hn0, hc0, hfalse, hat]
  · intro he hepos
    have htr : internals.expiresInTruthy rule = true := by
      simp only [internals.expiresInTruthy, he, bne_iff_ne, ne_eq, decide_eq_true_eq]
      omega
    constructor
    · have hage : ¬ (created - created < 0) := by omega
      simp [internals.Policy.ttl, hc0, hage, htr, he]
      omega
    · have hne : ¬ (created + e = 0) := by omega
      have hage : ¬ (created + e - created < 0) := by omega
      simp [internals.Policy.ttl, hne, hc0, hage, htr, he]

/-- Witness for C5 (amended): `expiresIn = 1000`, `created = 100`,
`now = 150` yields `max(1000 - 50, 0) = 950`. -/
theorem ttl_formula_amended_witness :
    (0 : Int) < 100 ∧ (0 : Int) < 150 ∧
    ({ expiresIn := some 1000 } : Rule).expiresIn = some 1000 ∧ (0 : Int) < 1000 ∧
    (100 : Int) ≤ 150 ∧
    internals.Policy.ttl { expiresIn := some 1000 } 0 77 100 150 =
      max (1000 - (150 - 100)) 0 :=
  ⟨by decide, by decide, rfl, by decide, by decide,
   (ttl_formula_amended { expiresIn := some 1000 } 0 77 100 150 1000
     (by decide) (by decide)).2.1 rfl (by decide) (by decide)⟩

/-- Counterexample to C6 as stated: `ttl` is not monotonically
non-increasing in `now` over all `now`.  First, the clock-skew clamp
returns 0 for `now < created` and then jumps up to `expiresIn` at
`now = created`.  Second, for falsy `created = 0` the source re-derives
`created` from `now`, so under `expiresAt` the value can grow with `now`
(here from 1 h to 23 h as `now` crosses the 12:00 expiry). -/
theorem ttl_monotone_counterexample :
    ((50 : Int) ≤ 100 ∧
      internals.Policy.ttl { expiresIn := some 1000 } 0 77 100 50 <
        internals.Policy.ttl { expiresIn := some 1000 } 0 77 100 100) ∧
    ((39600000 : Int) ≤ 46800000 ∧
      internals.Policy.ttl { expiresAt := some ⟨12, 0⟩ } 0 77 0 39600000 <
        internals.Policy.ttl { expiresAt := some ⟨12, 0⟩ } 0 77 0 46800000) :=
  ⟨⟨by decide, by decide⟩, ⟨by decide, by decide⟩⟩

/-- C6 (amended): for every rule (`expiresIn`, `expiresAt` — including
the roll-to-next-day adjustment and the 24-hour cutoff — or neither) and
fixed positive `created`, `ttl(rule, created, now)` is monotonically
non-increasing in `now` on the domain `now ≥ created`. -/
theorem ttl_monotone_amended (rule : Rule) (tz dateNow created now1 now2 : Int)
    (hc : 0 < created) (h1 : created ≤ now1) (h12 : now1 ≤ now2) :
    internals.Policy.ttl rule tz dateNow created now2 ≤
      internals.Policy.ttl rule tz dateNow created now1 := by
  have hc0 : ¬ (created = 0) := by omega
  have hn1 : ¬ (now1 = 0) := by omega
  have hn2 : ¬ (now2 = 0) := by omega
  have ha1 : ¬ (now1 - created < 0) := by omega
  have ha2 : ¬ (now2 - created < 0) := by omega
  simp only [internals.Policy.ttl, if_neg hn1, if_neg hn2, if_neg hc0, if_neg ha1, if_neg ha2]
  by_cases htr : internals.expiresInTruthy rule = true
  · rw [if_pos htr, if_pos htr]
    exact max_le_max (by omega) le_rfl
  · rw [if_neg htr, if_neg htr]
    cases hat : rule.expiresAt with
    | none => simp
    | some ea =>
      simp only [hat]
      generalize internals.setTime created ea.hours ea.minutes tz = E
      generalize internals.day = D
      generalize (if E ≤ created then E + D else E) = X
      split_ifs <;> omega

/-- Witness for C6 (amended): `expiresIn = 1000`, `created = 100`,
`now` moving from 150 to 300 does not increase the ttl. -/
theorem ttl_monotone_amended_witness :
    (0 : Int) < 100 ∧ (100 : Int) ≤ 150 ∧ (150 : Int) ≤ 300 ∧
    internals.Policy.ttl { expiresIn := some 1000 } 0 77 100 300 ≤
      internals.Policy.ttl { expiresIn := some 1000 } 0 77 100 150 :=
  ⟨by decide, by decide, by decide,
   ttl_monotone_amended { expiresIn := some 1000 } 0 77 100 150 300
     (by decide) (by decide) (by decide)⟩

theorem digitVal_le (c : Char) (d : Nat) (h : internals.digitVal c = some d) : d ≤ 9 := by
  unfold internals.digitVal at h
  split_ifs at h with hc
  simp only [Option.some.injEq] at h
  omega

theorem expiresAtMatch_le (s : String) (hh mm : Nat)
    (hmatch : internals.expiresAtMatch s = some (hh, mm)) : hh ≤ 99 ∧ mm ≤ 99 := by
  unfold internals.expiresAtMatch at hmatch
  split at hmatch
  · split at hmatch
    · rename_i ha hb hc
      simp only [Option.some.injEq, Prod.mk.injEq] at hmatch
      obtain ⟨rfl, rfl⟩ := hmatch
      have h1 := digitVal_le _ _ ha
      have h2 := digitVal_le _ _ hb
      have h3 := digitVal_le _ _ hc
      omega
    · simp at hmatch
  · split at hmatch
    · rename_i ha hb hc hd
      simp only [Option.some.injEq, Prod.mk.injEq] at hmatch
      obtain ⟨rfl, rfl⟩ := hmatch
      have h1 := digitVal_le _ _ ha
      have h2 := digitVal_le _ _ hb
      have h3 := digitVal_le _ _ hc
      have h4 := digitVal_le _ _ hd
      omega
    · simp at hmatch
  · simp at hmatch

/-- Counterexample to C8 as stated: the schema regex `^\d\d?\:\d\d$` does
not bound hours by 23 or minutes by 59, so `{ expiresAt: "99:99" }`
compiles successfully and the rule carries hours 99 and minutes 99. -/
theorem expires_at_validation_counterexample :
    ((internals.Policy.compile { expiresAt := some "99:99" } false).toOption.map
        Rule.expiresAt) = some (some ⟨99, 99⟩) ∧
    ¬ ((99 : Nat) ≤ 23 ∧ (99 : Nat) ≤ 59) := ⟨by decide, by decide⟩

/-- C8 (amended): for every options map containing `expiresAt`,
compilation succeeds only if `expiresIn` is absent and the `expiresAt`
string matches the digit pattern `\d\d?:\d\d` (so hours and minutes are
each at most 99, with no 0-23 / 0-59 range check); on success the
compiled rule's `expiresAt` carries exactly the parsed hours and
minutes. -/
theorem expires_at_validation_amended (o : Options) (serverSide : Bool) (s : String)
    (r : Rule)
    (hs : o.expiresAt = some s)
    (hok : internals.Policy.compile o serverSide = Except.ok r) :
    o.expiresIn = none ∧
    (internals.expiresAtMatch s).isSome = true ∧
    r.expiresAt = (internals.expiresAtMatch s).map (fun hm => ⟨hm.1, hm.2⟩) ∧
    (∀ hh mm, internals.expiresAtMatch s = some (hh, mm) →
      hh ≤ 99 ∧ mm ≤ 99) := by
  have hne : o.isEmpty = false := by
    simp [Options.isEmpty, hs]
  have hsv : internals.schemaValid o = true := by
    by_contra hsv
    simp [internals.Policy.compile, hne, hsv] at hok
  have hin : o.expiresIn = none := by
    rcases hi : o.expiresIn with _ | v
    · rfl
    · exfalso
      simp [internals.schemaValid, hs, hi] at hsv
  have hmat : (internals.expiresAtMatch s).isSome = true := by
    rcases hm : internals.expiresAtMatch s with _ | hmv
    · exfalso
      simp [internals.schemaValid, hs, hm] at hsv
    · rfl
  rcases hm : internals.expiresAtMatch s with _ | ⟨hh, mm⟩
  · rw [hm] at hmat
    simp at hmat
  · refine ⟨hin, rfl, ?_, ?_⟩
    · rcases hck : internals.compileChecks o serverSide with _ | msg
      · simp only [internals.Policy.compile, hne, Bool.false_eq_true, if_false, hsv,
          not_true_eq_false, hck, hs, hm] at hok
        rw [Except.ok.injEq] at hok
        subst hok
        by_cases hgf : o.generateFunc = true <;>
          by_cases hsi : o.staleIn.isSome = true <;>
          simp [hgf, hsi, hm]
      · simp [internals.Policy.compile, hne, hsv, hck] at hok
    · intro hh2 mm2 hmm2
      simp only [Option.some.injEq, Prod.mk.injEq] at hmm2
      obtain ⟨rfl, rfl⟩ := hmm2
      exact expiresAtMatch_le s _ _ hm

/-- Witness for C8 (amended): `{ expiresAt: "13:30" }` compiles to a rule
carrying hours 13 and minutes 30, with `expiresIn` absent. -/
theorem expires_at_validation_amended_witness :
    ({ expiresAt := some "13:30" } : Options).expiresAt = some "13:30" ∧
    internals.Policy.compile { expiresAt := some "13:30" } false = Except.ok rule8 ∧
    ({ expiresAt := some "13:30" } : Options).expiresIn = none ∧
    (internals.expiresAtMatch "13:30").isSome = true ∧
    rule8.expiresAt = (internals.expiresAtMatch "13:30").map (fun hm => ⟨hm.1, hm.2⟩) :=
  ⟨rfl, rfl,
   (expires_at_validation_amended { expiresAt := some "13:30" } false "13:30" rule8
     rfl rfl).1,
   (expires_at_validation_amended { expiresAt := some "13:30" } false "13:30" rule8
     rfl rfl).2.1,
   (expires_at_validation_amended { expiresAt := some "13:30" } false "13:30" rule8
     rfl rfl).2.2.1⟩

/-- Counterexample to C9 as stated: `drop` tests `!this._cache` before
inspecting the key, so on a policy without a backend `drop(null, cb)`
calls back with `null`, not with the claimed synchronous
`"Invalid key"` error. -/
theorem drop_invalid_key_counterexample :
    internals.Policy.drop (wstate []) false (Key.prim JsPrim.jsNull) none =
      ⟨wstate [], none, none⟩ ∧
    (⟨wstate [], none, none⟩ : internals.DropResult Nat).callbackArg ≠
      some "Invalid key" := ⟨by decide, by decide⟩

/-- C9 (amended): on a policy with a backend configured, every
`drop(key, cb)` whose key yields no truthy id calls back synchronously
with the `Invalid key` error and never reaches the backend; with a
truthy id the drop is passed through to the backend, the backend's error
is forwarded to the callback, and `stats.errors` is incremented exactly
when that error is truthy. -/
theorem drop_invalid_key_amended (α : Type) (p : PolicyState α) (key : Key)
    (backendErr : Option Err) :
    ((Key.extractId key).truthy = false →
      internals.Policy.drop p true key backendErr =
        ⟨p, some "Invalid key", none⟩) ∧
    ((Key.extractId key).truthy = true →
      (internals.Policy.drop p true key backendErr).backendDrop =
        some ((Key.extractId key).toJsString) ∧
      (internals.Policy.drop p true key backendErr).callbackArg = backendErr ∧
      (internals.Policy.drop p true key backendErr).state.stats.errors =
        p.stats.errors + (if backendErr.isSome then 1 else 0)) := by
  constructor
  · intro h
    simp [internals.Policy.drop, h]
  · intro h
    cases backendErr with
    | none => simp [internals.Policy.drop, h]
    | some e => simp [internals.Policy.drop, h]

/-- Witness for C9 (amended): with a backend, `drop` of a `null` key
fails with `Invalid key`; `drop` of `{ id: "a" }` reaches the backend,
forwards the backend error `"x"` and counts it. -/
theorem drop_invalid_key_amended_witness :
    ((Key.extractId (Key.prim JsPrim.jsNull)).truthy = false ∧
      internals.Policy.drop (wstate []) true (Key.prim JsPrim.jsNull) none =
        ⟨wstate [], some "Invalid key", none⟩) ∧
    ((Key.extractId (Key.obj (JsPrim.str "a"))).truthy = true ∧
      (internals.Policy.drop (wstate []) true (Key.obj (JsPrim.str "a"))
          (some "x")).backendDrop =
        some ((Key.extractId (Key.obj (JsPrim.str "a"))).toJsString) ∧
      (internals.Policy.drop (wstate []) true (Key.obj (JsPrim.str "a"))
          (some "x")).callbackArg = some "x" ∧
      (internals.Policy.drop (wstate []) true (Key.obj (JsPrim.str "a"))
          (some "x")).state.stats.errors =
        (wstate []).stats.errors + (if (some "x" : Option Err).isSome then 1 else 0)) :=
  ⟨⟨by decide,
    (drop_invalid_key_amended Nat (wstate []) (Key.prim JsPrim.jsNull) none).1 (by decide)⟩,
   ⟨by decide,
    (drop_invalid_key_amended Nat (wstate []) (Key.obj (JsPrim.str "a")) (some "x")).2
      (by decide)⟩⟩

end Catbox
